import Mathlib

/-!
Verification of the langgraph REST API graph service.

The development shallowly embeds the service's graph-mutation endpoints
(`add_node`, `update_node`, `delete_node`, `add_edge`, `delete_edge`,
`run_graph` from `api/main.py`), the state merge function (`update_dict`
from `api/_types.py`), and the two node behaviours (`function_node`,
`agent_node`).  Parts of the system that live in the langgraph library
rather than in this repository (the `StateGraph` mutation primitives, the
compile pass and the executor) are modelled from the specification and are
marked as such in their doc comments.

Python dictionaries are embedded as insertion-ordered association lists;
Python sets of edge pairs as duplicate-free lists.
-/

/-- Lookup in an insertion-ordered association list: the value of the first
entry carrying the key, exactly as a Python `dict` read. -/
def getKey? {K V : Type} [DecidableEq K] (d : List (K × V)) (k : K) : Option V :=
  match d with
  | [] => none
  | (k0, v0) :: rest => if k0 = k then some v0 else getKey? rest k

/-- Python's `k in d` membership test on a dictionary. -/
def hasKey {K V : Type} [DecidableEq K] (d : List (K × V)) (k : K) : Bool :=
  (getKey? d k).isSome

/-- Python dictionary assignment `d[k] = v`: replaces the value in place when
the key is present (keeping insertion order), appends a fresh entry
otherwise. -/
def setKey {K V : Type} [DecidableEq K] (d : List (K × V)) (k : K) (v : V) :
    List (K × V) :=
  if hasKey d k then d.map (fun kv => if kv.1 = k then (k, v) else kv)
  else d ++ [(k, v)]

/-- `update_dict` from `api/_types.py`: `a.update(b); return a`, i.e. merge
dictionary `b` into dictionary `a`, entry by entry. -/
def update_dict {K V : Type} [DecidableEq K] (a b : List (K × V)) :
    List (K × V) :=
  b.foldl (fun acc kv => setKey acc kv.1 kv.2) a

/-! ## Graph data model -/

/-- Modelled from the spec: the reserved `START` sentinel identifier of the
langgraph library (library code, not under `src/`). -/
def START_ID : String := "__start__"

/-- Modelled from the spec: the reserved `END` sentinel identifier of the
langgraph library (library code, not under `src/`). -/
def END_ID : String := "__end__"

/-- A node configuration from `api/_types.py`: `FunctionNodeConfig {name,
output}` or `AgentNodeConfig {name, prompt}`.  The constructor records which
concrete config class the request carried, which is also what decides the
node's behaviour in `add_node`. -/
inductive NodeConfig : Type where
  | function (name : String) (output : Option String)
  | agent (name : String) (prompt : Option String)
deriving DecidableEq, Repr

def NodeConfig.name : NodeConfig → String
  | .function n _ => n
  | .agent n _ => n

/-- `config.model_copy(update={"name": node_id})` from `update_node`. -/
def NodeConfig.withName : NodeConfig → String → NodeConfig
  | .function _ out, n => .function n out
  | .agent _ p, n => .agent n p

/-- A langgraph `StateGraph` builder as the service uses it: the `nodes`
dictionary from node name to the node's stored configuration (the metadata
attached in `add_node`), and the `edges` set of `(source, target)` pairs. -/
structure StateGraph : Type where
  nodes : List (String × NodeConfig)
  edges : List (String × String)
deriving DecidableEq, Repr

/-- The errors the service can surface: `http` is a raised
`fastapi.HTTPException`; `keyError` is an uncaught Python `KeyError`
(surfaced by FastAPI as an internal server error, not a not-found response);
the remaining constructors are the structural errors of the spec's
taxonomy, raised by the spec-modelled library primitives. -/
inductive ApiError : Type where
  | http (status : Nat) (detail : String)
  | keyError (key : String)
  | nodeNotFound (name : String)
  | duplicateNode (name : String)
  | cycleDetected (member : String)
  | danglingEdge (source target : String)
  | runnerError (message : String)
deriving DecidableEq, Repr

/-- An error belongs to the not-found class of the spec's error-to-status
mapping (`GraphNotFound`/`NodeNotFound`/`EdgeNotFound` → 404). -/
def ApiError.isNotFoundClass : ApiError → Bool
  | .http status _ => status == 404
  | .nodeNotFound _ => true
  | _ => false

/-- An edge endpoint is valid when it is a sentinel or an existing node. -/
def validEndpoint (nodes : List (String × NodeConfig)) (x : String) : Bool :=
  x == START_ID || x == END_ID || hasKey nodes x

/-- Modelled from the spec: langgraph's `StateGraph.add_node` (library code,
not under `src/`).  Per the spec it fails with `DuplicateNode` when
`config.name` already exists (never silently overwrite); otherwise it
inserts the node into the graph's node mapping and does not touch edges. -/
def StateGraph.lg_add_node (g : StateGraph) (name : String) (cfg : NodeConfig) :
    Except ApiError StateGraph :=
  if hasKey g.nodes name then .error (.duplicateNode name)
  else .ok { g with nodes := g.nodes ++ [(name, cfg)] }

/-- Modelled from the spec: langgraph's `StateGraph.add_edge` (library code,
not under `src/`).  Per the spec it fails with `NodeNotFound` when an
endpoint other than a sentinel does not exist in the graph, and otherwise
inserts the pair into the edge set (a set: re-adding an existing pair leaves
the set unchanged). -/
def StateGraph.lg_add_edge (g : StateGraph) (s t : String) :
    Except ApiError StateGraph :=
  if ¬ validEndpoint g.nodes s then .error (.nodeNotFound s)
  else if ¬ validEndpoint g.nodes t then .error (.nodeNotFound t)
  else .ok { g with edges := if (s, t) ∈ g.edges then g.edges else g.edges ++ [(s, t)] }

/-- The in-memory graph store `graphs : dict[int, StateGraph]`. -/
def Graphs : Type := List (Nat × StateGraph)

/-! ## Endpoint operations from `api/main.py` -/

structure AddNodeRequest : Type where
  config : NodeConfig
deriving DecidableEq, Repr

structure EdgeRequest : Type where
  source : String
  target : String
deriving DecidableEq, Repr

/-- The sentinel translation applied to a source endpoint throughout
`api/main.py`: `START if source == "start" else source`. -/
def restoreSrc (s : String) : String :=
  if s = "start" then START_ID else s

/-- The sentinel translation applied to a target endpoint throughout
`api/main.py`: `END if target == "end" else target`. -/
def restoreTgt (t : String) : String :=
  if t = "end" then END_ID else t

/-- `add_node` from `api/main.py`: 404 when the graph id is unknown, then
`graph.add_node(request.config.name, node_fn, metadata=request.config)`,
where the bound behaviour is `agent_node` for an `AgentNodeConfig` and
`function_node` otherwise. -/
def add_node (gs : Graphs) (gid : Nat) (request : AddNodeRequest) :
    Except ApiError Graphs :=
  match getKey? gs gid with
  | none => .error (.http 404 "Graph not found")
  | some g =>
    match g.lg_add_node request.config.name request.config with
    | .error e => .error e
    | .ok g1 => .ok (setKey gs gid g1)

/-- The graph left after `delete_node`'s mutations: pop the node from the
node dictionary and remove every edge in which it appears as source or
target. -/
def StateGraph.deleteOp (g : StateGraph) (node_id : String) : StateGraph :=
  { nodes := g.nodes.filter (fun kv => !(kv.1 == node_id)),
    edges := g.edges.filter (fun e => !(e.1 == node_id || e.2 == node_id)) }

/-- `delete_node` from `api/main.py`: 404 for an unknown graph, 404 for an
unknown node, otherwise remove the node and cascade-remove its edges. -/
def delete_node (gs : Graphs) (gid : Nat) (node_id : String) :
    Except ApiError Graphs :=
  match getKey? gs gid with
  | none => .error (.http 404 "Graph not found")
  | some g =>
    if hasKey g.nodes node_id then .ok (setKey gs gid (g.deleteOp node_id))
    else .error (.http 404 "Node not found")

/-- The per-edge capture step in `update_node`: sentinels are translated to
the portable string markers, `"start"` for `START` and `"end"` for `END`. -/
def captureEdge (e : String × String) : String × String :=
  ((if e.1 = START_ID then "start" else e.1),
   (if e.2 = END_ID then "end" else e.2))

/-- One iteration of `update_node`'s edge-replay loop: re-add a captured
edge through `graph.add_edge` with the markers translated back to sentinels,
logging and skipping the edge when the add raises. -/
def addEdgeStep (acc : StateGraph) (e : String × String) : StateGraph :=
  match acc.lg_add_edge (restoreSrc e.1) (restoreTgt e.2) with
  | .ok g1 => g1
  | .error _ => acc

/-- The edge-replay loop at the end of `update_node`: each captured edge is
re-added, and an individual replay failure does not abort the update. -/
def replayEdges (g : StateGraph) (preserved : List (String × String)) :
    StateGraph :=
  preserved.foldl addEdgeStep g

/-- `update_node` from `api/main.py`: capture every edge touching the node
(sentinels translated to markers), call `delete_node`, re-add the node under
the same id with `config.model_copy(update={"name": node_id})`, then replay
the captured edges.  The final store lookup models the Python code's mutable
`graph` alias into the store. -/
def update_node (gs : Graphs) (gid : Nat) (node_id : String)
    (config : NodeConfig) : Except ApiError Graphs :=
  match getKey? gs gid with
  | none => .error (.http 404 "Graph not found")
  | some g =>
    if hasKey g.nodes node_id then
      let preserved :=
        (g.edges.filter (fun e => e.1 == node_id || e.2 == node_id)).map captureEdge
      match delete_node gs gid node_id with
      | .error e => .error e
      | .ok gs1 =>
        match add_node gs1 gid ⟨config.withName node_id⟩ with
        | .error e => .error e
        | .ok gs2 =>
          match getKey? gs2 gid with
          | none => .error (.http 404 "Graph not found")
          | some g2 => .ok (setKey gs2 gid (replayEdges g2 preserved))
    else .error (.http 404 "Node not found")

/-- The edges `update_node` captures for a node: those touching it, with
sentinels translated to markers. -/
def StateGraph.preservedOf (g : StateGraph) (nid : String) :
    List (String × String) :=
  (g.edges.filter (fun e => e.1 == nid || e.2 == nid)).map captureEdge

/-- The graph state between `update_node`'s re-add of the node and its edge
replay: the node deleted and re-appended under its old id with the renamed
config. -/
def StateGraph.afterAdd (g : StateGraph) (nid : String) (cfg : NodeConfig) :
    StateGraph :=
  { nodes := (g.deleteOp nid).nodes ++ [(nid, cfg.withName nid)],
    edges := (g.deleteOp nid).edges }

/-- `add_edge` from `api/main.py`: 404 for an unknown graph, then
`graph.add_edge(START if source == "start" else source,
END if target == "end" else target)`. -/
def add_edge (gs : Graphs) (gid : Nat) (request : EdgeRequest) :
    Except ApiError Graphs :=
  match getKey? gs gid with
  | none => .error (.http 404 "Graph not found")
  | some g =>
    match g.lg_add_edge (restoreSrc request.source) (restoreTgt request.target) with
    | .error e => .error e
    | .ok g1 => .ok (setKey gs gid g1)

/-- `delete_edge` from `api/main.py`: 404 for an unknown graph, then
`graph.edges.remove(pair)` — Python's `set.remove`, which raises `KeyError`
when the pair is absent. -/
def delete_edge (gs : Graphs) (gid : Nat) (request : EdgeRequest) :
    Except ApiError Graphs :=
  match getKey? gs gid with
  | none => .error (.http 404 "Graph not found")
  | some g =>
    let e := (restoreSrc request.source, restoreTgt request.target)
    if e ∈ g.edges then .ok (setKey gs gid { g with edges := g.edges.erase e })
    else .error (.keyError "edge")

/-! ## Compiler (spec-modelled) -/

/-- The node-to-node edges of a graph: edges whose endpoints are both real
nodes, i.e. with the sentinels excluded. -/
def realEdges (g : StateGraph) : List (String × String) :=
  g.edges.filter
    (fun e => !(e.1 == START_ID || e.1 == END_ID || e.2 == START_ID || e.2 == END_ID))

/-- A not-yet-ordered node still has an incoming edge from another
not-yet-ordered node. -/
def hasIncoming (edges : List (String × String)) (remaining : List String)
    (n : String) : Bool :=
  edges.any (fun e => e.2 == n && remaining.contains e.1)

/-- The next node the ordering pass may emit: the first remaining node with
no incoming edge from a remaining node. -/
def pickNode (edges : List (String × String)) (remaining : List String) :
    Option String :=
  remaining.find? (fun n => !hasIncoming edges remaining n)

/-- Modelled from the spec: the ordering half of `compile` (library code,
not under `src/`).  Repeatedly emits a remaining node with no incoming edge
from the remaining set; when no such node exists the remaining nodes form a
cycle and the pass fails with `CycleDetected` naming one member.  The fuel
argument only bounds the recursion; it exceeds the node count, so it can
never run out before the remaining list empties. -/
def kahn (edges : List (String × String)) :
    Nat → List String → List String → Except ApiError (List String)
  | _, [], acc => .ok acc
  | 0, n :: _, _ => .error (.cycleDetected n)
  | fuel + 1, n :: rest, acc =>
    match pickNode edges (n :: rest) with
    | none => .error (.cycleDetected n)
    | some m => kahn edges fuel ((n :: rest).erase m) (acc ++ [m])

/-- Modelled from the spec: `compile(graph)` (library code, not under
`src/`): validate that every edge endpoint resolves to a real node or a
sentinel (`DanglingEdge` otherwise), then order the nodes, rejecting cycles
among the node-to-node edges. -/
def StateGraph.compile (g : StateGraph) : Except ApiError (List String) :=
  match g.edges.find?
      (fun e => !(validEndpoint g.nodes e.1 && validEndpoint g.nodes e.2)) with
  | some e => .error (.danglingEdge e.1 e.2)
  | none => kahn (realEdges g) (g.nodes.length + 1) (g.nodes.map Prod.fst) []

/-- A directed cycle in an edge list: a nonempty node sequence in which each
member has an edge to its cyclic successor. -/
def IsCycleIn (edges : List (String × String)) (c : List String) : Prop :=
  c ≠ [] ∧ ∀ i : Fin c.length,
    (c.get i, c.get ⟨(i.val + 1) % c.length, Nat.mod_lt _ i.pos⟩) ∈ edges

instance (edges : List (String × String)) (c : List String) :
    Decidable (IsCycleIn edges c) := by
  unfold IsCycleIn
  infer_instance

/-! ## Execution state and node behaviours -/

/-- The Python state dictionary a node receives: the `input` and `output`
keys of `GraphState`, each possibly absent (`none`), as `api/main.py`'s
membership tests require. -/
structure PyGraphState : Type where
  input : Option (List String)
  output : Option (List (String × Option String))
deriving DecidableEq, Repr

/-- Python truthiness of a stored output value: `None` and the empty string
are falsy. -/
def truthy : Option String → Bool
  | none => false
  | some s => s != ""

/-- `str` of the run's input list, used when an agent node falls back to the
run-level input as its message content. -/
def strOfInput (l : List String) : String :=
  String.intercalate ", " l

/-- `function_node` from `api/main.py`: initialise `state["output"]` to an
empty dictionary when the key is absent, then write
`output[config.name] = config.output`. -/
def function_node (name : String) (cfgOutput : Option String)
    (state : PyGraphState) : PyGraphState :=
  let st := match state.output with
    | none => { state with output := some [] }
    | some _ => state
  { st with output := some (setKey (st.output.getD []) name cfgOutput) }

/-- The messages an agent node collects: for every edge targeting it, the
truthy output of the edge's source when present; otherwise the run-level
input when nonempty. -/
def collectMessages (edges : List (String × String)) (name : String)
    (state : PyGraphState) : List String :=
  let fromEdges := edges.filterMap
    (fun e =>
      if e.2 = name then
        match state.output with
        | none => none
        | some out =>
          match getKey? out e.1 with
          | none => none
          | some v => if truthy v then some (v.getD "") else none
      else none)
  if fromEdges = [] then
    match state.input with
    | some l => if l ≠ [] then [strOfInput l] else []
    | none => []
  else fromEdges

/-- `agent_node` from `api/main.py`: collect messages from incoming edges
(falling back to the run input), call the external agent runner, fail with a
500 `HTTPException` when the runner returns no messages, then write the last
message's content with `state["output"][config.name] = last_message` — an
unguarded dictionary access that raises `KeyError` when the state carries no
`"output"` key.  The runner stands for the `create_react_agent(...).invoke`
call, an external collaborator. -/
def agent_node (edges : List (String × String)) (name : String)
    (runner : List String → Except String (List String))
    (state : PyGraphState) : Except ApiError PyGraphState :=
  match runner (collectMessages edges name state) with
  | .error e => .error (.runnerError e)
  | .ok [] => .error (.http 500 "Agent did not return any messages")
  | .ok (m :: rest) =>
    match state.output with
    | none => .error (.keyError "output")
    | some out =>
      .ok { state with
            output := some (setKey out name (some ((m :: rest).getLast (List.cons_ne_nil m rest)))) }

/-! ## Executor (spec-modelled) and `run_graph` -/

/-- The merge law of the spec's state model: `input` contributions are
appended, `output` contributions are merged with `update_dict`
(last-writer-wins). -/
def mergeState (a b : PyGraphState) : PyGraphState :=
  { input := match a.input, b.input with
      | none, y => y
      | some xa, none => some xa
      | some xa, some xb => some (xa ++ xb),
    output := match a.output, b.output with
      | none, y => y
      | some da, none => some da
      | some da, some db => some (update_dict da db) }

/-- One node invocation of a run: look up the node's stored configuration and
dispatch on its kind, a function node running `function_node` and an agent
node running `agent_node` with its configured prompt. -/
def stepNode (g : StateGraph)
    (runner : Option String → List String → Except String (List String))
    (n : String) (st : PyGraphState) : Except ApiError PyGraphState :=
  match getKey? g.nodes n with
  | none => .error (.http 500 "Unknown plan node")
  | some (.function name out) => .ok (function_node name out st)
  | some (.agent name prompt) => agent_node g.edges name (runner prompt) st

/-- Modelled from the spec: the executor (the compiled graph's `invoke`,
library code not under `src/`): run the plan's nodes in order, merging each
returned contribution into the accumulated state per the merge law, and
abort on the first node failure, discarding nothing already merged but
committing nothing of the failing node. -/
def runPlan (g : StateGraph)
    (runner : Option String → List String → Except String (List String)) :
    List String → PyGraphState → Except ApiError PyGraphState
  | [], st => .ok st
  | n :: rest, st =>
    match stepNode g runner n st with
    | .error e => .error e
    | .ok contrib => runPlan g runner rest (mergeState st contrib)

/-- `str(e)` of a caught exception, as interpolated into `run_graph`'s 500
detail message. -/
def errStr : ApiError → String
  | .http _ detail => detail
  | .keyError key => key
  | .nodeNotFound name => "Node " ++ name ++ " not found"
  | .duplicateNode name => "Node " ++ name ++ " already present"
  | .cycleDetected member => "Cycle detected at " ++ member
  | .danglingEdge s t => "Dangling edge " ++ s ++ " -> " ++ t
  | .runnerError message => message

/-- What a run reports to the caller: the merged result state on success, or
an HTTP failure status and detail string. -/
inductive RunOutcome : Type where
  | ok (result : PyGraphState)
  | failed (status : Nat) (detail : String)
deriving DecidableEq, Repr

/-- `run_graph` from `api/main.py`: 404 for an unknown graph; otherwise seed
the state with `{"input": [input_data["text"]]}`, compile and invoke inside a
`try`, and turn any raised exception `e` into
`HTTPException(500, f"Graph execution failed: {str(e)}")` — the failure
report carries only that string. -/
def run_graph (gs : Graphs) (gid : Nat)
    (runner : Option String → List String → Except String (List String))
    (text : String) : RunOutcome :=
  match getKey? gs gid with
  | none => .failed 404 "Graph not found"
  | some g =>
    match g.compile with
    | .error e => .failed 500 ("Graph execution failed: " ++ errStr e)
    | .ok plan =>
      match runPlan g runner plan { input := some [text], output := none } with
      | .error e => .failed 500 ("Graph execution failed: " ++ errStr e)
      | .ok result => .ok result

/-! ## Concrete instances used by witnesses and counterexamples -/

/-- A two-node graph: function node `a` writing `"x"`, agent node `b` fed by
the edge from `a`. -/
def GA : StateGraph :=
  { nodes := [("a", .function "a" (some "x")), ("b", .agent "b" none)],
    edges := [("a", "b")] }

/-- A one-node graph holding only the agent node `b`. -/
def GB : StateGraph :=
  { nodes := [("b", .agent "b" none)], edges := [] }

/-- An agent runner whose call always throws. -/
def failRunner : Option String → List String → Except String (List String) :=
  fun _ _ => .error "boom"

/-- A two-node graph whose real edges form the cycle `a → b → a`. -/
def GC : StateGraph :=
  { nodes := [("a", .function "a" none), ("b", .function "b" none)],
    edges := [("a", "b"), ("b", "a")] }

/-- A two-node graph with no edges. -/
def G3 : StateGraph :=
  { nodes := [("a", .function "a" none), ("b", .function "b" none)],
    edges := [] }

/-- A store holding one two-node graph with no edges. -/
def CS3 : Graphs := [(1, G3)]

/-- A second store holding one two-node graph with no edges. -/
def CS4 : Graphs :=
  [(1, { nodes := [("c", .function "c" none), ("d", .function "d" none)],
         edges := [] })]

/-- A store holding one single-node graph, the node named `m`. -/
def CS6c : Graphs :=
  [(1, { nodes := [("m", .function "m" none)], edges := [] })]

/-- The spec's update example: node `m` between `p` and `q`, wired from
`START` to `END`. -/
def G6 : StateGraph :=
  { nodes := [("p", .function "p" none), ("m", .function "m" none),
              ("q", .function "q" none)],
    edges := [(START_ID, "p"), ("p", "m"), ("m", "q"), ("q", END_ID)] }

/-- The spec's deletion example: nodes `A`, `B`, `C` with edges
`{(A,B), (B,C), (A,C)}`. -/
def G7 : StateGraph :=
  { nodes := [("A", .function "A" none), ("B", .function "B" none),
              ("C", .function "C" none)],
    edges := [("A", "B"), ("B", "C"), ("A", "C")] }

/-- A state carrying a run input but no `"output"` key. -/
def C9state : PyGraphState := { input := some ["hi"], output := none }

/-- An agent runner that always answers with the single message `"resp"`. -/
def C9runner : List String → Except String (List String) :=
  fun _ => .ok ["resp"]

/-! ## Dictionary lemmas -/

theorem getKey_append {K V : Type} [DecidableEq K] (d e : List (K × V)) (k : K) :
    getKey? (d ++ e) k = ((getKey? d k).orElse (fun _ => getKey? e k)) := by
  induction d with
  | nil => simp [getKey?, Option.orElse]
  | cons hd tl ih =>
    by_cases h : hd.1 = k
    · simp [getKey?, h, Option.orElse]
    · simpa [getKey?, h, Option.orElse] using ih

theorem getKey_map_set {K V : Type} [DecidableEq K] (d : List (K × V))
    (k k' : K) (v : V) :
    getKey? (d.map (fun kv => if kv.1 = k then (k, v) else kv)) k' =
      if k' = k then (getKey? d k).map (fun _ => v) else getKey? d k' := by
  induction d with
  | nil => simp [getKey?]
  | cons hd tl ih =>
    obtain ⟨a, b⟩ := hd
    rw [List.map_cons]
    by_cases h0 : a = k
    · rw [if_pos (show ((a, b) : K × V).1 = k from h0)]
      by_cases h1 : k' = k
      · subst h1
        simp [getKey?, h0]
      · have h2 : ¬ k = k' := fun h => h1 h.symm
        simp [getKey?, h0, h1, h2, ih]
    · rw [if_neg (show ¬ ((a, b) : K × V).1 = k from h0)]
      by_cases h1 : a = k'
      · have h2 : ¬ k' = k := fun h => h0 (h1.trans h)
        simp [getKey?, h1, h2]
      · simp [getKey?, h0, h1, ih]

/-- Master lemma for dictionary assignment: `setKey` changes exactly the
looked-up key and nothing else. -/
theorem getKey_setKey {K V : Type} [DecidableEq K] (d : List (K × V))
    (k k' : K) (v : V) :
    getKey? (setKey d k v) k' = if k = k' then some v else getKey? d k' := by
  unfold setKey
  by_cases hk : hasKey d k
  · rw [if_pos hk, getKey_map_set]
    by_cases h1 : k' = k
    · subst h1
      simp only [if_pos rfl, if_pos rfl]
      unfold hasKey at hk
      cases hgk : getKey? d k' with
      | none => rw [hgk] at hk; simp at hk
      | some w => simp
    · have h2 : ¬ k = k' := fun h => h1 h.symm
      simp [h1, h2]
  · rw [if_neg hk, getKey_append]
    by_cases h1 : k = k'
    · subst h1
      unfold hasKey at hk
      cases hgk : getKey? d k with
      | none => simp [getKey?, Option.orElse]
      | some w => rw [hgk] at hk; simp at hk
    · cases hgk : getKey? d k' with
      | none => simp [getKey?, Option.orElse, h1]
      | some w => simp [getKey?, Option.orElse, h1]

theorem getKey_eq_none_of_not_mem {K V : Type} [DecidableEq K]
    (d : List (K × V)) (k : K) (h : k ∉ d.map Prod.fst) :
    getKey? d k = none := by
  induction d with
  | nil => rfl
  | cons hd tl ih =>
    simp only [List.map_cons, List.mem_cons] at h
    push_neg at h
    have : hd.1 ≠ k := fun he => h.1 he.symm
    simp [getKey?, this, ih h.2]

/-- Master lemma for `update_dict`: a key present in `b` takes `b`'s value,
any other key keeps `a`'s value (`b`'s keys are duplicate-free, as the keys
of any Python dictionary are). -/
theorem getKey_update_dict {K V : Type} [DecidableEq K] (a b : List (K × V))
    (hb : (b.map Prod.fst).Nodup) (k : K) :
    getKey? (update_dict a b) k =
      ((getKey? b k).orElse (fun _ => getKey? a k)) := by
  induction b generalizing a with
  | nil => simp [update_dict, getKey?, Option.orElse]
  | cons hd tl ih =>
    simp only [List.map_cons, List.nodup_cons] at hb
    have step : update_dict a (hd :: tl) = update_dict (setKey a hd.1 hd.2) tl := rfl
    rw [step, ih _ hb.2]
    by_cases h1 : hd.1 = k
    · subst h1
      have : getKey? tl hd.1 = none :=
        getKey_eq_none_of_not_mem tl hd.1 hb.1
      simp [getKey?, this, getKey_setKey, Option.orElse]
    · simp [getKey?, h1, getKey_setKey, Option.orElse]

theorem hasKey_mem_keys {K V : Type} [DecidableEq K] (d : List (K × V)) (k : K)
    (h : hasKey d k = true) : k ∈ d.map Prod.fst := by
  induction d with
  | nil => simp [hasKey, getKey?] at h
  | cons hd tl ih =>
    by_cases h0 : hd.1 = k
    · simp [h0]
    · simp only [hasKey, getKey?, h0, if_neg] at h
      simp [ih h]

theorem hasKey_eq_isSome {K V : Type} [DecidableEq K] (d : List (K × V)) (k : K) :
    hasKey d k = (getKey? d k).isSome := rfl

theorem getKey_filter_ne_self {K V : Type} [DecidableEq K]
    (d : List (K × V)) (k : K) :
    getKey? (d.filter (fun kv => !(kv.1 == k))) k = none := by
  induction d with
  | nil => rfl
  | cons hd tl ih =>
    by_cases h0 : hd.1 = k
    · simp [List.filter_cons, h0, ih]
    · simp [List.filter_cons, h0, getKey?, ih]

theorem getKey_filter_ne_other {K V : Type} [DecidableEq K]
    (d : List (K × V)) (k m : K) (hm : m ≠ k) :
    getKey? (d.filter (fun kv => !(kv.1 == k))) m = getKey? d m := by
  induction d with
  | nil => rfl
  | cons hd tl ih =>
    have hkm : ¬ k = m := fun h => hm h.symm
    by_cases h0 : hd.1 = k
    · have h1 : ¬ hd.1 = m := fun h => hm (h ▸ h0 ▸ rfl)
      simp [List.filter_cons, h0, getKey?, h1, ih, hkm]
    · by_cases h1 : hd.1 = m
      · simp [List.filter_cons, h0, getKey?, h1, hm, hkm]
      · simp [List.filter_cons, h0, getKey?, h1, ih, hkm]

/-! ## Edge-replay lemmas -/

theorem lg_add_edge_ok_nodes (g g1 : StateGraph) (s t : String)
    (h : g.lg_add_edge s t = .ok g1) : g1.nodes = g.nodes := by
  unfold StateGraph.lg_add_edge at h
  split_ifs at h <;> cases h <;> rfl

theorem lg_add_edge_ok_mono (g g1 : StateGraph) (s t : String)
    (h : g.lg_add_edge s t = .ok g1) : ∀ x ∈ g.edges, x ∈ g1.edges := by
  unfold StateGraph.lg_add_edge at h
  split_ifs at h <;> cases h <;> (intro x hx; simp [hx])

theorem lg_add_edge_ok_mem (g g1 : StateGraph) (s t : String)
    (h : g.lg_add_edge s t = .ok g1) : (s, t) ∈ g1.edges := by
  unfold StateGraph.lg_add_edge at h
  split_ifs at h with h1 h2 h3 <;> cases h
  · exact h3
  · simp

theorem lg_add_edge_ok_of_valid (g : StateGraph) (s t : String)
    (hs : validEndpoint g.nodes s = true) (ht : validEndpoint g.nodes t = true) :
    ∃ g1, g.lg_add_edge s t = .ok g1 := by
  unfold StateGraph.lg_add_edge
  rw [if_neg (by simp [hs]), if_neg (by simp [ht])]
  exact ⟨_, rfl⟩

theorem addEdgeStep_nodes (acc : StateGraph) (e : String × String) :
    (addEdgeStep acc e).nodes = acc.nodes := by
  unfold addEdgeStep
  cases h : acc.lg_add_edge (restoreSrc e.1) (restoreTgt e.2) with
  | ok g1 => exact lg_add_edge_ok_nodes _ _ _ _ h
  | error err => rfl

theorem addEdgeStep_mono (acc : StateGraph) (e : String × String)
    (x : String × String) (hx : x ∈ acc.edges) : x ∈ (addEdgeStep acc e).edges := by
  unfold addEdgeStep
  cases h : acc.lg_add_edge (restoreSrc e.1) (restoreTgt e.2) with
  | ok g1 => exact lg_add_edge_ok_mono _ _ _ _ h x hx
  | error err => exact hx

theorem addEdgeStep_mem (acc : StateGraph) (e : String × String)
    (hs : validEndpoint acc.nodes (restoreSrc e.1) = true)
    (ht : validEndpoint acc.nodes (restoreTgt e.2) = true) :
    (restoreSrc e.1, restoreTgt e.2) ∈ (addEdgeStep acc e).edges := by
  obtain ⟨g1, hok⟩ := lg_add_edge_ok_of_valid acc _ _ hs ht
  unfold addEdgeStep
  rw [hok]
  exact lg_add_edge_ok_mem _ _ _ _ hok

theorem replayEdges_nodes (l : List (String × String)) (g : StateGraph) :
    (replayEdges g l).nodes = g.nodes := by
  induction l generalizing g with
  | nil => rfl
  | cons hd tl ih =>
    show (replayEdges (addEdgeStep g hd) tl).nodes = g.nodes
    rw [ih, addEdgeStep_nodes]

theorem replayEdges_mono (l : List (String × String)) (g : StateGraph)
    (x : String × String) (hx : x ∈ g.edges) : x ∈ (replayEdges g l).edges := by
  induction l generalizing g with
  | nil => exact hx
  | cons hd tl ih =>
    exact ih (addEdgeStep g hd) (addEdgeStep_mono g hd x hx)

theorem replayEdges_mem (l : List (String × String)) (g : StateGraph)
    (x : String × String) (hx : x ∈ l)
    (hs : validEndpoint g.nodes (restoreSrc x.1) = true)
    (ht : validEndpoint g.nodes (restoreTgt x.2) = true) :
    (restoreSrc x.1, restoreTgt x.2) ∈ (replayEdges g l).edges := by
  induction l generalizing g with
  | nil => cases hx
  | cons hd tl ih =>
    rcases List.mem_cons.mp hx with hhd | htl
    · subst hhd
      exact replayEdges_mono tl (addEdgeStep g x) _ (addEdgeStep_mem g x hs ht)
    · refine ih (addEdgeStep g hd) htl ?_ ?_
      · rw [addEdgeStep_nodes]; exact hs
      · rw [addEdgeStep_nodes]; exact ht

theorem restore_captureEdge (e : String × String)
    (h1 : e.1 ≠ "start") (h2 : e.2 ≠ "end") :
    (restoreSrc (captureEdge e).1, restoreTgt (captureEdge e).2) = e := by
  obtain ⟨x, y⟩ := e
  have hx : restoreSrc (if x = START_ID then "start" else x) = x := by
    by_cases ha : x = START_ID
    · simp [ha, restoreSrc]
    · simp only [if_neg ha, restoreSrc]
      exact if_neg h1
  have hy : restoreTgt (if y = END_ID then "end" else y) = y := by
    by_cases hb : y = END_ID
    · simp [hb, restoreTgt]
    · simp only [if_neg hb, restoreTgt]
      exact if_neg h2
  show (restoreSrc (if x = START_ID then "start" else x),
        restoreTgt (if y = END_ID then "end" else y)) = (x, y)
  rw [hx, hy]

/-! ## Cycle-detection lemmas -/

theorem kahn_stuck (edges : List (String × String)) (S : List String)
    (hne : S ≠ []) (hpred : ∀ n ∈ S, ∃ m ∈ S, (m, n) ∈ edges) :
    ∀ fuel remaining acc, (∀ n ∈ S, n ∈ remaining) →
      ∃ w, kahn edges fuel remaining acc = .error (.cycleDetected w) := by
  intro fuel
  induction fuel with
  | zero =>
    intro remaining acc hsub
    cases remaining with
    | nil =>
      obtain ⟨n, hn⟩ := List.exists_mem_of_ne_nil S hne
      exact absurd (hsub n hn) (List.not_mem_nil n)
    | cons r rest => exact ⟨r, rfl⟩
  | succ fuel ih =>
    intro remaining acc hsub
    cases remaining with
    | nil =>
      obtain ⟨n, hn⟩ := List.exists_mem_of_ne_nil S hne
      exact absurd (hsub n hn) (List.not_mem_nil n)
    | cons r rest =>
      cases hpick : pickNode edges (r :: rest) with
      | none => exact ⟨r, by simp [kahn, hpick]⟩
      | some m =>
        have hmS : m ∉ S := by
          intro hmem
          obtain ⟨p, hpS, hedge⟩ := hpred m hmem
          have hfind := List.find?_some hpick
          have hinc : hasIncoming edges (r :: rest) m = true := by
            rw [hasIncoming, List.any_eq_true]
            refine ⟨(p, m), hedge, ?_⟩
            simpa using hsub p hpS
          rw [hinc] at hfind
          simp at hfind
        have hsub' : ∀ n ∈ S, n ∈ (r :: rest).erase m := by
          intro n hn
          have hnm : n ≠ m := fun h => hmS (h ▸ hn)
          rw [List.mem_erase_of_ne hnm]
          exact hsub n hn
        obtain ⟨w, hw⟩ := ih ((r :: rest).erase m) (acc ++ [m]) hsub'
        exact ⟨w, by simp [kahn, hpick, hw]⟩

theorem cycle_mem_pred (edges : List (String × String)) (c : List String)
    (hc : IsCycleIn edges c) : ∀ n ∈ c, ∃ m ∈ c, (m, n) ∈ edges := by
  obtain ⟨hne, hcyc⟩ := hc
  intro n hn
  obtain ⟨j, hj⟩ := List.mem_iff_get.mp hn
  have hpos : 0 < c.length := j.pos
  have key := hcyc ⟨(j.val + (c.length - 1)) % c.length, Nat.mod_lt _ hpos⟩
  have harith : (((j.val + (c.length - 1)) % c.length) + 1) % c.length = j.val := by
    rw [Nat.mod_add_mod]
    have h1 : j.val + (c.length - 1) + 1 = j.val + c.length := by omega
    rw [h1, Nat.add_mod_right, Nat.mod_eq_of_lt j.isLt]
  refine ⟨c.get ⟨(j.val + (c.length - 1)) % c.length, Nat.mod_lt _ hpos⟩,
    List.get_mem c _ _, ?_⟩
  have h2 : c.get ⟨(((j.val + (c.length - 1)) % c.length) + 1) % c.length,
      Nat.mod_lt _ hpos⟩ = n := by
    rw [← hj]
    congr 1
    exact Fin.ext harith
  rw [← h2]
  exact key

/-! ## Endpoint evaluation lemmas -/

theorem lg_add_edge_ok_frame (g g1 : StateGraph) (s t : String)
    (h : g.lg_add_edge s t = .ok g1) :
    ∀ e ∈ g1.edges, e ∈ g.edges ∨ e = (s, t) := by
  unfold StateGraph.lg_add_edge at h
  split_ifs at h <;> cases h
  · intro e he; exact .inl he
  · intro e he
    rcases List.mem_append.mp he with h | h
    · exact .inl h
    · simp only [List.mem_singleton] at h
      exact .inr h

theorem NodeConfig.name_withName (cfg : NodeConfig) (n : String) :
    (cfg.withName n).name = n := by
  cases cfg <;> rfl

theorem deleteOp_nodes_self (g : StateGraph) (nid : String) :
    getKey? (g.deleteOp nid).nodes nid = none :=
  getKey_filter_ne_self g.nodes nid

theorem deleteOp_nodes_other (g : StateGraph) (nid m : String) (hm : m ≠ nid) :
    getKey? (g.deleteOp nid).nodes m = getKey? g.nodes m :=
  getKey_filter_ne_other g.nodes nid m hm

theorem validEndpoint_after_readd (g : StateGraph) (nid : String)
    (cfg : NodeConfig) (x : String)
    (hx : validEndpoint g.nodes x = true) :
    validEndpoint (g.afterAdd nid cfg).nodes x = true := by
  unfold StateGraph.afterAdd validEndpoint
  unfold validEndpoint at hx
  simp only [Bool.or_eq_true, beq_iff_eq] at hx ⊢
  rcases hx with (h | h) | h
  · exact .inl (.inl h)
  · exact .inl (.inr h)
  · refine .inr ?_
    rw [hasKey_eq_isSome, getKey_append]
    by_cases hxe : x = nid
    · subst hxe
      rw [deleteOp_nodes_self]
      simp [getKey?, Option.orElse]
    · rw [deleteOp_nodes_other g nid x hxe]
      rw [hasKey_eq_isSome] at h
      obtain ⟨w, hw⟩ := Option.isSome_iff_exists.mp h
      simp [hw, Option.orElse]

theorem update_node_eval (gs : Graphs) (gid : Nat) (nid : String)
    (cfg : NodeConfig) (g : StateGraph)
    (hg : getKey? gs gid = some g) (hn : hasKey g.nodes nid = true) :
    ∃ gs', update_node gs gid nid cfg = .ok gs' ∧
      getKey? gs' gid = some (replayEdges (g.afterAdd nid cfg) (g.preservedOf nid)) := by
  have hdel : delete_node gs gid nid = .ok (setKey gs gid (g.deleteOp nid)) := by
    unfold delete_node
    rw [hg]
    simp [hn]
  have hget1 : getKey? (setKey gs gid (g.deleteOp nid)) gid = some (g.deleteOp nid) := by
    rw [getKey_setKey]; simp
  have hnodup : hasKey (g.deleteOp nid).nodes nid = false := by
    rw [hasKey_eq_isSome, deleteOp_nodes_self]; rfl
  have hadd : add_node (setKey gs gid (g.deleteOp nid)) gid ⟨cfg.withName nid⟩ =
      .ok (setKey (setKey gs gid (g.deleteOp nid)) gid (g.afterAdd nid cfg)) := by
    unfold add_node
    rw [hget1]
    unfold StateGraph.lg_add_node
    simp [NodeConfig.name_withName, hnodup, StateGraph.afterAdd]
  have hget2 : getKey? (setKey (setKey gs gid (g.deleteOp nid)) gid
      (g.afterAdd nid cfg)) gid = some (g.afterAdd nid cfg) := by
    rw [getKey_setKey]; simp
  refine ⟨setKey (setKey (setKey gs gid (g.deleteOp nid)) gid (g.afterAdd nid cfg)) gid
      (replayEdges (g.afterAdd nid cfg) (g.preservedOf nid)), ?_, ?_⟩
  · unfold update_node
    rw [hg]
    simp only [hn, if_true, hdel, hadd, hget2, StateGraph.preservedOf]
  · rw [getKey_setKey]; simp

/-! ## Claim theorems -/

/-- C8: the state merge for the output mapping is a shallow union with
last-writer-wins: merging prior outputs `a` with node contributions `b`
yields a mapping containing every key of `a` and `b`, every key present in
`b` carrying `b`'s value; hence when two nodes write the same key in
sequence the final value is the later writer's. -/
theorem update_dict_last_writer_wins {V : Type} (a b : List (String × V))
    (hb : (b.map Prod.fst).Nodup) :
    (∀ k, hasKey (update_dict a b) k = (hasKey a k || hasKey b k)) ∧
    (∀ k v, getKey? b k = some v → getKey? (update_dict a b) k = some v) ∧
    (∀ (c : List (String × V)) (k : String) (v1 v2 : V),
      getKey? (update_dict (update_dict c [(k, v1)]) [(k, v2)]) k = some v2) := by
  refine ⟨?_, ?_, ?_⟩
  · intro k
    rw [hasKey_eq_isSome, hasKey_eq_isSome, hasKey_eq_isSome,
        getKey_update_dict a b hb k]
    cases hbk : getKey? b k <;> cases hak : getKey? a k <;> simp [Option.orElse]
  · intro k v hv
    rw [getKey_update_dict a b hb k, hv]
    rfl
  · intro c k v1 v2
    have h2 : (([(k, v2)]).map Prod.fst).Nodup := by simp
    rw [getKey_update_dict _ _ h2 k]
    simp [getKey?, Option.orElse]

/-- Witness for C8 at concrete dictionaries: sequential writes to key `n`
end with the later value. -/
theorem update_dict_last_writer_wins_witness :
    ((([("n", "2")]).map Prod.fst).Nodup : Prop) ∧
    getKey? (update_dict [("n", "1")] [("n", "2")]) "n" = some "2" :=
  ⟨by decide,
   (update_dict_last_writer_wins [("n", "1")] [("n", "2")] (by decide)).2.1
     "n" "2" rfl⟩

/-- C7: deleting an existing node removes it from the node mapping and
removes exactly the edges in which it appears as source or target; every
other node's record and every other edge is unchanged. -/
theorem delete_node_exact (gs : Graphs) (gid : Nat) (nid : String)
    (g : StateGraph) (hg : getKey? gs gid = some g)
    (hn : hasKey g.nodes nid = true) :
    ∃ gs' g', delete_node gs gid nid = .ok gs' ∧ getKey? gs' gid = some g' ∧
      getKey? g'.nodes nid = none ∧
      (∀ m, m ≠ nid → getKey? g'.nodes m = getKey? g.nodes m) ∧
      (∀ e : String × String,
        e ∈ g'.edges ↔ e ∈ g.edges ∧ e.1 ≠ nid ∧ e.2 ≠ nid) := by
  refine ⟨setKey gs gid (g.deleteOp nid), g.deleteOp nid, ?_, ?_, ?_, ?_, ?_⟩
  · unfold delete_node
    rw [hg]
    simp [hn]
  · rw [getKey_setKey]; simp
  · exact deleteOp_nodes_self g nid
  · exact fun m hm => deleteOp_nodes_other g nid m hm
  · intro e
    unfold StateGraph.deleteOp
    rw [List.mem_filter]
    simp [and_assoc]

/-- Witness for C7 at the spec's example: deleting `B` from
`{(A,B), (B,C), (A,C)}` leaves exactly `{(A,C)}`. -/
theorem delete_node_exact_witness :
    hasKey G7.nodes "B" = true ∧
    (∃ gs' g', delete_node [(1, G7)] 1 "B" = .ok gs' ∧
      getKey? gs' 1 = some g' ∧
      getKey? g'.nodes "B" = none ∧
      (∀ m, m ≠ "B" → getKey? g'.nodes m = getKey? G7.nodes m) ∧
      (∀ e : String × String,
        e ∈ g'.edges ↔ e ∈ G7.edges ∧ e.1 ≠ "B" ∧ e.2 ≠ "B")) :=
  ⟨by decide, delete_node_exact [(1, G7)] 1 "B" G7 rfl (by decide)⟩

/-- C9: an agent node running on a state with no `"output"` key fails with a
`KeyError` on its final write, while a function node on the same state
initialises the mapping and records its configured output. -/
theorem agent_node_missing_output_key (edges : List (String × String))
    (name fname : String) (cfgOutput : Option String)
    (runner : List String → Except String (List String))
    (state : PyGraphState) (h0 : state.output = none)
    (hr : ∀ msgs, ∃ m rest, runner msgs = .ok (m :: rest)) :
    agent_node edges name runner state = .error (.keyError "output") ∧
    (function_node fname cfgOutput state).output = some [(fname, cfgOutput)] := by
  constructor
  · obtain ⟨m, rest, hm⟩ := hr (collectMessages edges name state)
    unfold agent_node
    rw [hm]
    simp [h0]
  · unfold function_node
    rw [h0]
    simp [setKey, hasKey, getKey?]

/-- Witness for C9 on a concrete output-less state with a runner answering
one message. -/
theorem agent_node_missing_output_key_witness :
    (C9state.output = none ∧ C9runner [] = .ok ["resp"]) ∧
    (agent_node [] "b" C9runner C9state = .error (.keyError "output") ∧
     (function_node "f" (some "ok") C9state).output = some [("f", some "ok")]) :=
  ⟨⟨rfl, rfl⟩,
   agent_node_missing_output_key [] "b" "f" (some "ok") C9runner C9state rfl
     (fun _ => ⟨"resp", [], rfl⟩)⟩

/-- C5: adding a node whose config name already names an existing node of an
existing graph fails with `DuplicateNode` and does not overwrite the
existing record (an error result installs no new store). -/
theorem add_node_duplicate_rejected (gs : Graphs) (gid : Nat)
    (request : AddNodeRequest) (g : StateGraph)
    (hg : getKey? gs gid = some g)
    (hdup : hasKey g.nodes request.config.name = true) :
    add_node gs gid request = .error (.duplicateNode request.config.name) := by
  unfold add_node
  rw [hg]
  unfold StateGraph.lg_add_node
  simp [hdup]

/-- Witness for C5: re-adding node `a` of the two-node graph is rejected. -/
theorem add_node_duplicate_rejected_witness :
    (getKey? CS3 1 = some G3 ∧ hasKey G3.nodes "a" = true) ∧
    add_node CS3 1 ⟨.function "a" (some "y")⟩ = .error (.duplicateNode "a") :=
  ⟨⟨rfl, by decide⟩,
   add_node_duplicate_rejected CS3 1 ⟨.function "a" (some "y")⟩ G3 rfl (by decide)⟩

/-- C4 (amended): removing an absent edge from an existing graph fails with
an uncaught Python `KeyError` from `set.remove` — an internal-error
response, not the not-found class the claim names — and, the operation
having raised, the graph's edge set is unchanged. -/
theorem delete_edge_absent_keyerror (gs : Graphs) (gid : Nat)
    (request : EdgeRequest) (g : StateGraph)
    (hg : getKey? gs gid = some g)
    (habs : (restoreSrc request.source, restoreTgt request.target) ∉ g.edges) :
    delete_edge gs gid request = .error (.keyError "edge") ∧
    ApiError.isNotFoundClass (.keyError "edge") = false := by
  constructor
  · unfold delete_edge
    rw [hg]
    simp [habs]
  · rfl

/-- Counterexample for C4 as stated: removing the absent edge `(c, d)`
surfaces a `KeyError`, which is not in the not-found error class. -/
theorem delete_edge_absent_keyerror_cex :
    delete_edge CS4 1 ⟨"c", "d"⟩ = .error (.keyError "edge") ∧
    ApiError.isNotFoundClass (.keyError "edge") = false := ⟨rfl, rfl⟩

/-- Witness for the amended C4 on the edgeless two-node graph. -/
theorem delete_edge_absent_keyerror_witness :
    (getKey? CS3 1 = some G3 ∧
     (restoreSrc "a", restoreTgt "b") ∉ G3.edges) ∧
    (delete_edge CS3 1 ⟨"a", "b"⟩ = .error (.keyError "edge") ∧
     ApiError.isNotFoundClass (.keyError "edge") = false) :=
  ⟨⟨rfl, by decide⟩,
   delete_edge_absent_keyerror CS3 1 ⟨"a", "b"⟩ G3 rfl (by decide)⟩

/-- C10: `update_node` recreates the node under the path's `node_id`, and
the stored config's name equals `node_id` whatever name the supplied config
carried — the operation can never rename a node. -/
theorem update_node_forces_node_id (gs : Graphs) (gid : Nat) (nid : String)
    (cfg : NodeConfig) (g : StateGraph)
    (hg : getKey? gs gid = some g) (hn : hasKey g.nodes nid = true) :
    ∃ gs' g', update_node gs gid nid cfg = .ok gs' ∧ getKey? gs' gid = some g' ∧
      getKey? g'.nodes nid = some (cfg.withName nid) ∧
      (cfg.withName nid).name = nid := by
  obtain ⟨gs', hrun, hget⟩ := update_node_eval gs gid nid cfg g hg hn
  refine ⟨gs', _, hrun, hget, ?_, NodeConfig.name_withName cfg nid⟩
  rw [replayEdges_nodes]
  unfold StateGraph.afterAdd
  rw [getKey_append, deleteOp_nodes_self]
  simp [getKey?, Option.orElse]

/-- Witness for C10: updating `m` with a config named `zzz` leaves the node
stored under `m` with name `m`. -/
theorem update_node_forces_node_id_witness :
    (getKey? [(1, G6)] 1 = some G6 ∧ hasKey G6.nodes "m" = true) ∧
    (∃ gs' g', update_node [(1, G6)] 1 "m" (.agent "zzz" none) = .ok gs' ∧
      getKey? gs' 1 = some g' ∧
      getKey? g'.nodes "m" = some ((NodeConfig.agent "zzz" none).withName "m") ∧
      ((NodeConfig.agent "zzz" none).withName "m").name = "m") :=
  ⟨⟨rfl, by decide⟩,
   update_node_forces_node_id [(1, G6)] 1 "m" (.agent "zzz" none) G6 rfl (by decide)⟩

/-- C3 (amended): only the exact lowercase string "start" in source position
is mapped to the START sentinel and only the exact lowercase "end" in target
position to the END sentinel; the mapped pair is then inserted and nothing
else is added to the edge set.  Uppercase "START"/"END" pass through
unmapped — see the counterexample. -/
theorem add_edge_sentinel_mapping (gs : Graphs) (gid : Nat)
    (request : EdgeRequest) (g : StateGraph)
    (hg : getKey? gs gid = some g)
    (hs : validEndpoint g.nodes (restoreSrc request.source) = true)
    (ht : validEndpoint g.nodes (restoreTgt request.target) = true) :
    restoreSrc "start" = START_ID ∧ restoreTgt "end" = END_ID ∧
    ∃ gs' g', add_edge gs gid request = .ok gs' ∧ getKey? gs' gid = some g' ∧
      (restoreSrc request.source, restoreTgt request.target) ∈ g'.edges ∧
      ∀ e ∈ g'.edges,
        e ∈ g.edges ∨ e = (restoreSrc request.source, restoreTgt request.target) := by
  refine ⟨rfl, rfl, ?_⟩
  obtain ⟨g1, hok⟩ := lg_add_edge_ok_of_valid g _ _ hs ht
  refine ⟨setKey gs gid g1, g1, ?_, ?_, lg_add_edge_ok_mem _ _ _ _ hok,
    lg_add_edge_ok_frame _ _ _ _ hok⟩
  · unfold add_edge
    simp only [hg, hok]
  · rw [getKey_setKey]; simp

/-- Counterexample for C3 as stated: the endpoint string "START" is not
mapped to the reserved START sentinel (nor "END" to END), and the add fails
instead of inserting a sentinel edge. -/
theorem add_edge_uppercase_not_mapped_cex :
    restoreSrc "START" ≠ START_ID ∧ restoreTgt "END" ≠ END_ID ∧
    add_edge CS3 1 ⟨"START", "b"⟩ = .error (.nodeNotFound "START") :=
  ⟨by decide, by decide, rfl⟩

/-- Witness for the amended C3: adding the edge ("start", "b") inserts
(START, "b"). -/
theorem add_edge_sentinel_mapping_witness :
    (getKey? CS3 1 = some G3 ∧
     validEndpoint G3.nodes (restoreSrc "start") = true ∧
     validEndpoint G3.nodes (restoreTgt "b") = true) ∧
    (restoreSrc "start" = START_ID ∧ restoreTgt "end" = END_ID ∧
     ∃ gs' g', add_edge CS3 1 ⟨"start", "b"⟩ = .ok gs' ∧ getKey? gs' 1 = some g' ∧
       (restoreSrc "start", restoreTgt "b") ∈ g'.edges ∧
       ∀ e ∈ g'.edges, e ∈ G3.edges ∨ e = (restoreSrc "start", restoreTgt "b")) :=
  ⟨⟨rfl, by decide, by decide⟩,
   add_edge_sentinel_mapping CS3 1 ⟨"start", "b"⟩ G3 rfl (by decide) (by decide)⟩

/-- C2: a graph whose node-to-node edges (sentinels excluded) contain a
directed cycle fails to compile with `CycleDetected` rather than producing
an executable plan, for any graph satisfying the data-model invariant that
every edge endpoint is a sentinel or an existing node. -/
theorem compile_detects_cycle (g : StateGraph) (c : List String)
    (hc : IsCycleIn (realEdges g) c)
    (hwf : ∀ e ∈ g.edges,
      validEndpoint g.nodes e.1 = true ∧ validEndpoint g.nodes e.2 = true) :
    ∃ w, g.compile = .error (.cycleDetected w) := by
  have hfind : g.edges.find?
      (fun e => !(validEndpoint g.nodes e.1 && validEndpoint g.nodes e.2)) = none := by
    rw [List.find?_eq_none]
    intro e he
    simp [(hwf e he).1, (hwf e he).2]
  have hpred := cycle_mem_pred _ _ hc
  have hsub : ∀ n ∈ c, n ∈ g.nodes.map Prod.fst := by
    intro n hn
    obtain ⟨m, hm, hedge⟩ := hpred n hn
    have hmem := List.mem_filter.mp hedge
    have hval := (hwf _ hmem.1).2
    have hsent := hmem.2
    simp only [Bool.not_eq_true', Bool.or_eq_false_iff, beq_eq_false_iff_ne,
      ne_eq] at hsent
    simp only [validEndpoint, Bool.or_eq_true, beq_iff_eq] at hval
    rcases hval with (h | h) | h
    · exact absurd h hsent.1.2
    · exact absurd h hsent.2
    · exact hasKey_mem_keys g.nodes n h
  obtain ⟨w, hw⟩ := kahn_stuck (realEdges g) c hc.1 hpred
    (g.nodes.length + 1) (g.nodes.map Prod.fst) [] hsub
  refine ⟨w, ?_⟩
  unfold StateGraph.compile
  rw [hfind]
  exact hw

/-- Witness for C2 on the concrete cycle a → b → a. -/
theorem compile_detects_cycle_witness :
    (IsCycleIn (realEdges GC) ["a", "b"] ∧
     ∀ e ∈ GC.edges,
       validEndpoint GC.nodes e.1 = true ∧ validEndpoint GC.nodes e.2 = true) ∧
    (∃ w, GC.compile = .error (.cycleDetected w)) :=
  ⟨⟨by decide, by decide⟩,
   compile_detects_cycle GC ["a", "b"] (by decide) (by decide)⟩

/-- C6 (amended): after `update_node` every edge that touched node M still
exists — sentinel edges included — and M's stored config equals newConfig
with its name field replaced by M's id (the code forces the name, so the
stored config equals newConfig exactly only when `newConfig.name = M`; see
the counterexample).  The graph is assumed well-formed: every edge endpoint
is a sentinel or an existing node, and no stored edge carries the literal
marker strings "start" as source or "end" as target — edges the API's
sentinel mapping can never produce. -/
theorem update_node_preserves_edges (gs : Graphs) (gid : Nat) (nid : String)
    (cfg : NodeConfig) (g : StateGraph)
    (hg : getKey? gs gid = some g) (hn : hasKey g.nodes nid = true)
    (hwf : ∀ e ∈ g.edges,
      validEndpoint g.nodes e.1 = true ∧ validEndpoint g.nodes e.2 = true)
    (hsan : ∀ e ∈ g.edges, e.1 ≠ "start" ∧ e.2 ≠ "end") :
    ∃ gs' g', update_node gs gid nid cfg = .ok gs' ∧ getKey? gs' gid = some g' ∧
      (∀ e ∈ g.edges, (e.1 = nid ∨ e.2 = nid) → e ∈ g'.edges) ∧
      getKey? g'.nodes nid = some (cfg.withName nid) := by
  obtain ⟨gs', hrun, hget⟩ := update_node_eval gs gid nid cfg g hg hn
  refine ⟨gs', _, hrun, hget, ?_, ?_⟩
  · intro e he htouch
    have hcap : captureEdge e ∈ g.preservedOf nid := by
      unfold StateGraph.preservedOf
      refine List.mem_map.mpr ⟨e, ?_, rfl⟩
      rw [List.mem_filter]
      refine ⟨he, ?_⟩
      rcases htouch with h | h <;> simp [h]
    have hround := restore_captureEdge e (hsan e he).1 (hsan e he).2
    have h1 : validEndpoint (g.afterAdd nid cfg).nodes
        (restoreSrc (captureEdge e).1) = true := by
      rw [show restoreSrc (captureEdge e).1 = e.1 from congrArg Prod.fst hround]
      exact validEndpoint_after_readd g nid cfg e.1 (hwf e he).1
    have h2 : validEndpoint (g.afterAdd nid cfg).nodes
        (restoreTgt (captureEdge e).2) = true := by
      rw [show restoreTgt (captureEdge e).2 = e.2 from congrArg Prod.snd hround]
      exact validEndpoint_after_readd g nid cfg e.2 (hwf e he).2
    have hm := replayEdges_mem (g.preservedOf nid) (g.afterAdd nid cfg)
      (captureEdge e) hcap h1 h2
    rw [hround] at hm
    exact hm
  · rw [replayEdges_nodes]
    unfold StateGraph.afterAdd
    rw [getKey_append, deleteOp_nodes_self]
    simp [getKey?, Option.orElse]

/-- Counterexample for C6 as stated: updating node m with a config named
"other" stores a config still named m, so the stored config is not the
supplied newConfig. -/
theorem update_node_config_not_newconfig_cex :
    update_node CS6c 1 "m" (.function "other" (some "x")) =
      .ok [(1, { nodes := [("m", NodeConfig.function "m" (some "x"))],
                 edges := [] })] ∧
    NodeConfig.function "m" (some "x") ≠ NodeConfig.function "other" (some "x") :=
  ⟨rfl, by decide⟩

/-- Witness for the amended C6 on the spec's example chain START → p → m →
q → END. -/
theorem update_node_preserves_edges_witness :
    (getKey? [(1, G6)] 1 = some G6 ∧ hasKey G6.nodes "m" = true ∧
     (∀ e ∈ G6.edges,
       validEndpoint G6.nodes e.1 = true ∧ validEndpoint G6.nodes e.2 = true) ∧
     (∀ e ∈ G6.edges, e.1 ≠ "start" ∧ e.2 ≠ "end")) ∧
    (∃ gs' g', update_node [(1, G6)] 1 "m" (.agent "m" (some "pr")) = .ok gs' ∧
      getKey? gs' 1 = some g' ∧
      (∀ e ∈ G6.edges, (e.1 = "m" ∨ e.2 = "m") → e ∈ g'.edges) ∧
      getKey? g'.nodes "m" = some ((NodeConfig.agent "m" (some "pr")).withName "m")) :=
  ⟨⟨rfl, by decide, by decide, by decide⟩,
   update_node_preserves_edges [(1, G6)] 1 "m" (.agent "m" (some "pr")) G6 rfl
     (by decide) (by decide) (by decide)⟩

/-- C1 (amended): when a run fails at a node, `run_graph` reports a 500
failure whose detail is exactly "Graph execution failed: " followed by the
error's string — a report determined by the error alone; the merged state of
the nodes that completed earlier is not part of the report.  The failing
node's effects are not committed: the executor aborts before merging them. -/
theorem run_graph_failure_report (gs : Graphs) (gid : Nat)
    (runner : Option String → List String → Except String (List String))
    (text : String) (g : StateGraph) (plan : List String) (err : ApiError)
    (hg : getKey? gs gid = some g) (hcomp : g.compile = .ok plan)
    (hfail : runPlan g runner plan
      { input := some [text], output := none } = .error err) :
    run_graph gs gid runner text =
      .failed 500 ("Graph execution failed: " ++ errStr err) := by
  unfold run_graph
  simp only [hg, hcomp, hfail]

/-- Counterexample for C1 as stated: a run in which function node a
completed (merged output {a ↦ "x"}) before agent node b's runner threw, and
a run in which nothing completed before the throw, produce identical failure
reports — the report cannot contain the prior nodes' merged output. -/
theorem run_failure_report_drops_state_cex :
    run_graph [(1, GA)] 1 failRunner "hi" =
      .failed 500 "Graph execution failed: boom" ∧
    run_graph [(2, GB)] 2 failRunner "hi" =
      .failed 500 "Graph execution failed: boom" ∧
    runPlan GA failRunner ["a"] { input := some ["hi"], output := none } =
      .ok { input := some ["hi", "hi"], output := some [("a", some "x")] } ∧
    some [("a", some "x")] ≠ (none : Option (List (String × Option String))) :=
  ⟨rfl, rfl, rfl, by decide⟩

/-- Witness for the amended C1 on the concrete two-node graph whose agent
runner throws. -/
theorem run_graph_failure_report_witness :
    (getKey? [(1, GA)] 1 = some GA ∧ GA.compile = .ok ["a", "b"] ∧
     runPlan GA failRunner ["a", "b"] { input := some ["hi"], output := none } =
       .error (.runnerError "boom")) ∧
    run_graph [(1, GA)] 1 failRunner "hi" =
      .failed 500 ("Graph execution failed: " ++ errStr (.runnerError "boom")) :=
  ⟨⟨rfl, rfl, rfl⟩,
   run_graph_failure_report [(1, GA)] 1 failRunner "hi" GA ["a", "b"]
     (.runnerError "boom") rfl rfl rfl⟩
